import Mathlib

unseal Rat.sub Rat.add Rat.mul Rat.inv Nat.gcd

/-!
Shallow embedding of the CryptoVariations sampling-to-alert pipeline
(`src/backend/crypto_tracker.py`), with the price table, the statistics
computation (`calculate_stats`), the alert detector (`check_for_alerts`),
the Slack notification guard (`send_slack_alert`) and the per-tick driver
(`run_scraper`).  Prices and timestamps are rationals (timestamps are
seconds); Python float division by zero is modelled explicitly by `PyVal`.
-/

namespace CryptoTracker

/-- Result of a Python float expression that may divide by zero:
either a finite rational, positive or negative infinity, or NaN. -/
inductive PyVal where
  | fin (q : ℚ)
  | inf
  | ninf
  | nan
deriving DecidableEq

/-- Embeds `((cur - prev) / prev) * 100` under IEEE semantics: a zero
`prev` yields ±infinity (sign of the numerator) or NaN when `cur = prev = 0`,
exactly as numpy float division behaves in the source. -/
def pctChange (prev cur : ℚ) : PyVal :=
  if prev = 0 then
    if cur > 0 then .inf
    else if cur < 0 then .ninf
    else .nan
  else .fin ((cur - prev) / prev * 100)

/-- Embeds `abs(change) > threshold` on a Python float: true for ±infinity,
false for NaN, the rational comparison otherwise. -/
def pyAbsGT (v : PyVal) (th : ℚ) : Bool :=
  match v with
  | .fin q => decide (|q| > th)
  | .inf => true
  | .ninf => true
  | .nan => false

/-- One row of the `prices` table: crypto symbol, timestamp (seconds), price. -/
structure Sample where
  crypto : String
  ts : ℚ
  price : ℚ
deriving DecidableEq

/-- The global `variation_alert_threshold = 2` of the source. -/
def variationAlertThreshold : ℚ := 2

/- ### Time-interval formatting (`str(time_diff).split('.')[0]`)

A pandas `Timedelta` renders as `D days HH:MM:SS[.ffffff]`; the source keeps
everything before the first dot, i.e. the whole-second part. -/

/-- The decimal digit character for `d` (`d < 10` in every use). -/
def digitChar (d : ℕ) : Char := Char.ofNat (48 + d)

/-- Numeric value of a decimal digit character. -/
def charVal (c : Char) : ℕ := c.toNat - 48

/-- Least-significant-first decimal digit characters of `n`, with enough
fuel; structural recursion so that concrete instances reduce. -/
def natCharsAux : ℕ → ℕ → List Char
  | 0, _ => []
  | _ + 1, 0 => []
  | fuel + 1, n + 1 => digitChar ((n + 1) % 10) :: natCharsAux fuel ((n + 1) / 10)

/-- Decimal digit characters of `n`, most significant first ( `[]` for 0). -/
def natChars (n : ℕ) : List Char := (natCharsAux n n).reverse

/-- Decimal rendering of `n`, printing `0` as `"0"`. -/
def natCharsD (n : ℕ) : List Char := if n = 0 then [digitChar 0] else natChars n

/-- Two-digit zero-padded rendering, as pandas prints hours/minutes/seconds. -/
def padTwo (n : ℕ) : List Char := [digitChar (n / 10), digitChar (n % 10)]

/-- Character sequence `D days HH:MM:SS` for a whole number of seconds:
the pandas `Timedelta` string after sub-second truncation. -/
def fmtSeconds (t : ℕ) : List Char :=
  natCharsD (t / 86400) ++ [' ', 'd', 'a', 'y', 's', ' ']
    ++ padTwo (t % 86400 / 3600) ++ [':'] ++ padTwo (t % 3600 / 60)
    ++ [':'] ++ padTwo (t % 60)

/-- Embeds `str(time_diff).split('.')[0]` for a nonnegative elapsed time `t`
in (possibly fractional) seconds: dropping the text after the dot truncates
the duration to whole seconds. -/
def fmtInterval (t : ℚ) : String := ⟨fmtSeconds (Int.toNat ⌊t⌋)⟩

/-- Value of a most-significant-first decimal digit string. -/
def charsVal (l : List Char) : ℕ := l.foldl (fun a c => 10 * a + charVal c) 0

/-- Splits a character list into its leading run of digits and the rest. -/
def takeDigits : List Char → List Char × List Char
  | [] => ([], [])
  | c :: cs =>
    if c.isDigit then
      let p := takeDigits cs
      (c :: p.1, p.2)
    else ([], c :: cs)

/-- Parses the 8-character tail `HH:MM:SS` into a number of seconds. -/
def parseHMS : List Char → Option ℕ
  | [h1, h2, c1, m1, m2, c2, s1, s2] =>
    if c1 = ':' && c2 = ':' && h1.isDigit && h2.isDigit && m1.isDigit
        && m2.isDigit && s1.isDigit && s2.isDigit then
      some ((10 * charVal h1 + charVal h2) * 3600
            + (10 * charVal m1 + charVal m2) * 60
            + (10 * charVal s1 + charVal s2))
    else none
  | _ => none

/-- Recognises the `" days "` separator and returns what follows it. -/
def dropDaysSep : List Char → Option (List Char)
  | ' ' :: 'd' :: 'a' :: 'y' :: 's' :: ' ' :: rest => some rest
  | _ => none

/-- Parses a `D days HH:MM:SS` string back into a number of seconds. -/
def parseChars (l : List Char) : Option ℕ :=
  let p := takeDigits l
  if p.1.isEmpty then none
  else
    match dropDaysSep p.2 with
    | some rest => (parseHMS rest).map (fun x => charsVal p.1 * 86400 + x)
    | none => none

/-- Parses a formatted time interval back into whole seconds. -/
def parseInterval (s : String) : Option ℕ := parseChars s.data

/- ### Alert detection (`check_for_alerts` inner loop) -/

/-- One row of the `alerts` table. -/
structure AlertRec where
  crypto : String
  ts : ℚ
  start_price : ℚ
  end_price : ℚ
  price_change_pct : PyVal
  time_interval : String
deriving DecidableEq

/-- The body of the pairwise comparison in `check_for_alerts`: compute the
percent change between adjacent samples and build an alert row when its
absolute value strictly exceeds the threshold. -/
def emitAlert (c : String) (prev cur : Sample) (th : ℚ) : Option AlertRec :=
  let change := pctChange prev.price cur.price
  if pyAbsGT change th then
    some { crypto := c, ts := cur.ts, start_price := prev.price,
           end_price := cur.price, price_change_pct := change,
           time_interval := fmtInterval (cur.ts - prev.ts) }
  else none

/-- The loop `for i in range(1, len(group))` of `check_for_alerts`: one
comparison per adjacent pair of the asset's window, in order. -/
def detectGroup (c : String) (th : ℚ) : List Sample → List AlertRec
  | p :: q :: rest =>
    (match emitAlert c p q th with
     | some a => [a]
     | none => []) ++ detectGroup c th (q :: rest)
  | _ => []

/- ### Statistics engine (`calculate_stats` inner loop) -/

/-- Sample mean of a list of rationals. -/
def listMean (l : List ℚ) : ℚ := l.sum / l.length

/-- Sample variance with `ddof = 1`, as pandas `Series.std()` squares to;
only used on lists of length at least 2. -/
def sampleVar (l : List ℚ) : ℚ :=
  (l.map (fun x => (x - listMean l) ^ 2)).sum / ((l.length : ℚ) - 1)

/-- pandas `Series.std()`: the square root of the `ddof = 1` variance.
The square root lives in `ℝ`, so this definition is not used in any branch
a counterexample has to evaluate. -/
noncomputable def sampleStd (l : List ℚ) : ℝ := Real.sqrt (sampleVar l)

/-- Maximum of a price column ( `df['price'].max()` ), 0 on an empty list
(never hit: the caller guarantees at least two rows). -/
def listMax : List ℚ → ℚ
  | [] => 0
  | x :: xs => xs.foldl max x

/-- Minimum of a price column ( `df['price'].min()` ). -/
def listMin : List ℚ → ℚ
  | [] => 0
  | x :: xs => xs.foldl min x

/-- `df.tail(n)`: the last `n` rows (all of them when fewer exist). -/
def lastN (n : ℕ) (l : List α) : List α := l.drop (l.length - n)

/-- One row of the `stats` table. -/
structure StatRec where
  ts : ℚ
  crypto : String
  current_price : ℚ
  price_change_pct : PyVal
  price_change_24h_pct : PyVal
  volume_5min : ℝ
  high_24h : ℚ
  low_24h : ℚ

/-- The per-crypto body of `calculate_stats`: skip windows shorter than 2,
otherwise build the stats row from the timestamp-sorted window.  `now` is
`current_timestamp`, `ref` is `timestamp_24h_ago`. -/
noncomputable def computeStats (now ref : ℚ) (c : String) (w : List Sample) : Option StatRec :=
  if w.length < 2 then none
  else
    let prices := w.map (·.price)
    let current_price := prices.getLast?.getD 0
    let previous_price := prices.dropLast.getLast?.getD 0
    let df24 := w.filter (fun s => decide (ref ≤ s.ts))
    some { ts := now, crypto := c, current_price := current_price,
           price_change_pct := pctChange previous_price current_price,
           price_change_24h_pct :=
             match df24.head? with
             | some s0 => pctChange s0.price current_price
             | none => .fin 0,
           volume_5min :=
             if 2 ≤ (lastN 6 w).length then sampleStd ((lastN 6 w).map (·.price))
             else 0,
           high_24h := listMax prices,
           low_24h := listMin prices }

/- ### The store and the per-tick driver (`run_scraper`) -/

/-- The three tables the pipeline writes, in insertion order. -/
structure Store where
  prices : List Sample
  stats : List StatRec
  alertRows : List AlertRec

/-- Insertion of one element into a list sorted by the boolean order `le`. -/
def insertSorted (le : α → α → Bool) (x : α) : List α → List α
  | [] => [x]
  | y :: ys => if le x y then x :: y :: ys else y :: insertSorted le x ys

/-- Stable insertion sort by the boolean order `le`, embedding the SQL
`ORDER BY` / pandas `sort_values`. -/
def sortBy (le : α → α → Bool) (l : List α) : List α :=
  l.foldr (insertSorted le) []

/-- Timestamp order on samples ( `sort_values('timestamp')` ). -/
def tsLE (a b : Sample) : Bool := decide (a.ts ≤ b.ts)

/-- Lexicographic order on character lists. -/
def charListLE : List Char → List Char → Bool
  | [], _ => true
  | _ :: _, [] => false
  | c :: cs, d :: ds => if c = d then charListLE cs ds else decide (c < d)

/-- Lexicographic text order on crypto symbols ( `ORDER BY crypto` ). -/
def strLE (a b : String) : Bool := charListLE a.data b.data

/-- First-appearance deduplication ( `df['crypto'].unique()` ). -/
def uniqueKeep (l : List String) : List String :=
  l.foldl (fun acc c => if c ∈ acc then acc else acc ++ [c]) []

/-- `calculate_stats`: select the samples of the last 24 hours, group them
by crypto in sorted symbol order, and append one stats row per crypto whose
window holds at least two samples. -/
noncomputable def calculateStats (now : ℚ) (s : Store) : Store :=
  let ref := now - 86400
  let rows := s.prices.filter (fun r => decide (ref ≤ r.ts))
  let cryptos := uniqueKeep (sortBy strLE (rows.map (·.crypto)))
  let newStats := cryptos.filterMap
    (fun c => computeStats now ref c (sortBy tsLE (rows.filter (·.crypto = c))))
  { s with stats := s.stats ++ newStats }

/-- The alerts produced by one `check_for_alerts` call from the price table:
for each crypto in sorted symbol order, scan the adjacent pairs of its last
(at most) 50 samples in timestamp order. -/
def alertsScan (prices : List Sample) (th : ℚ) : List AlertRec :=
  ((uniqueKeep (sortBy strLE (prices.map (·.crypto)))).map
    (fun c => detectGroup c th (lastN 50 (sortBy tsLE (prices.filter (·.crypto = c)))))).flatten

/-- `check_for_alerts`: every detected alert is inserted into the `alerts`
table (within the still-open transaction) and also returned to the caller. -/
def checkForAlerts (th : ℚ) (s : Store) : Store × List AlertRec :=
  ({ s with alertRows := s.alertRows ++ alertsScan s.prices th },
   alertsScan s.prices th)

/-- `format_alerts_for_slack`: `None` on an empty list, otherwise one text
message for the whole batch (numeric rendering abstracted to the symbol and
interval columns). -/
def formatAlertsForSlack (alerts : List AlertRec) : Option String :=
  if alerts.isEmpty then none
  else some (alerts.foldl
    (fun m a => m ++ a.crypto ++ " " ++ a.time_interval ++ "\n") "Alerte\n")

/-- `send_slack_alert`: posts to the webhook only when the environment
variable is set to a non-empty (truthy) string; returns the list of HTTP
posts attempted. -/
def sendSlackAlert (webhook : Option String) (msg : String) :
    List (String × String) :=
  match webhook with
  | some url => if url = "" then [] else [(url, msg)]
  | none => []

/-- The HTTP posts a tick attempts: none when the batch is empty, otherwise
whatever `send_slack_alert` does with the formatted message. -/
def postsFor (webhook : Option String) (alerts : List AlertRec) :
    List (String × String) :=
  match formatAlertsForSlack alerts with
  | some msg => sendSlackAlert webhook msg
  | none => []

/-- What one `run_scraper` call leaves behind: the store after the tick,
how many samples the fetch brought in, the alerts the detector returned,
and whether the closing commit was reached (a raised exception instead
rolls the whole transaction back). -/
structure TickResult where
  store : Store
  ingested : ℕ
  alerts : List AlertRec
  committed : Bool

/-- `run_scraper` for one tick.  `fetched` is what `fetch_prices` returned
( `[]` on a non-success HTTP status), `webhook` the `SLACK_WEBHOOK_URL`
environment variable, `notifierFails` whether `requests.post` would raise.
Price inserts, `calculate_stats` and `check_for_alerts` all run inside one
transaction; Slack is posted before `conn.commit()`, and an exception while
posting triggers `conn.rollback()`. -/
noncomputable def runScraper (fetched : List (String × ℚ)) (now : ℚ) (webhook : Option String)
    (notifierFails : Bool) (s0 : Store) : TickResult :=
  let s1 := { s0 with
    prices := s0.prices ++ fetched.map (fun cp => ⟨cp.1, now, cp.2⟩) }
  let s2 := calculateStats now s1
  let res := checkForAlerts variationAlertThreshold s2
  let posts := postsFor webhook res.2
  if notifierFails && !posts.isEmpty then
    { store := s0, ingested := fetched.length, alerts := res.2, committed := false }
  else
    { store := res.1, ingested := fetched.length, alerts := res.2, committed := true }

/-! ### Claims -/

/-- C5: for every asset whose window has fewer than 2 samples,
`calculate_stats` produces no stats row: `computeStats` returns `none`
(the asset is skipped for the tick rather than failing). -/
theorem C5_short_window_no_stat (now ref : ℚ) (c : String) (w : List Sample)
    (h : w.length < 2) : computeStats now ref c w = none := by
  unfold computeStats
  rw [if_pos h]

/-- Witness for C5 at a one-sample window. -/
theorem C5_short_window_no_stat_w :
    ([({ crypto := "BTC", ts := 0, price := 100 } : Sample)].length < 2) ∧
    computeStats 600 0 "BTC" [{ crypto := "BTC", ts := 0, price := 100 }] = none :=
  ⟨by decide,
   C5_short_window_no_stat 600 0 "BTC" [{ crypto := "BTC", ts := 0, price := 100 }]
     (by decide)⟩

/-- C4: `check_for_alerts` emits exactly one alert for each adjacent pair of
the window whose percent change strictly exceeds the threshold in absolute
value and no alert otherwise (the scan is exactly a filter over the adjacent
pairs; a pair emits iff `abs(change) > threshold`); in particular the window
`[(t0,100),(t1,101),(t2,99)]` with threshold 2 yields zero alerts. -/
theorem C4_detect_exactly_qualifying_pairs (c : String) (th : ℚ) (w : List Sample) :
    detectGroup c th w
      = (w.zip w.tail).filterMap (fun pq => emitAlert c pq.1 pq.2 th)
    ∧ (∀ p q : Sample,
        (emitAlert c p q th).isSome = pyAbsGT (pctChange p.price q.price) th)
    ∧ detectGroup "BTC" 2
        [{ crypto := "BTC", ts := 0, price := 100 },
         { crypto := "BTC", ts := 300, price := 101 },
         { crypto := "BTC", ts := 600, price := 99 }] = [] := by
  refine ⟨?_, ?_, by decide⟩
  · induction w with
    | nil => rfl
    | cons p tl ih =>
      cases tl with
      | nil => rfl
      | cons q rest =>
        rcases h : emitAlert c p q th with _ | a <;>
          simp [detectGroup, List.filterMap_cons, h, ih]
  · intro p q
    unfold emitAlert
    rcases h : pyAbsGT (pctChange p.price q.price) th <;> simp [h]

/-- C1 counterexample: a pair whose earlier sample has price 0 makes the
detector emit an alert whose percent change is positive infinity, instead of
skipping the pair. -/
theorem C1_cex :
    detectGroup "BTC" 2
      [{ crypto := "BTC", ts := 0, price := 0 },
       { crypto := "BTC", ts := 300, price := 1 }]
    = [{ crypto := "BTC", ts := 300, start_price := 0, end_price := 1,
         price_change_pct := .inf, time_interval := "0 days 00:05:00" }] := by
  decide

/-- C1 amended: for an adjacent pair whose earlier sample has price 0 the
detector does not crash, but there is no `InvalidBaselinePrice` guard: when
the later price is also 0 the percent change is NaN and no alert is emitted,
and when the later price is nonzero the percent change is ±infinity and an
alert recording that infinite change is emitted. -/
theorem C1_zero_baseline (c : String) (prev cur : Sample) (th : ℚ)
    (h : prev.price = 0) :
    (cur.price = 0 → emitAlert c prev cur th = none) ∧
    (cur.price ≠ 0 → ∃ a, emitAlert c prev cur th = some a ∧
      (a.price_change_pct = .inf ∨ a.price_change_pct = .ninf)) := by
  constructor
  · intro h0
    simp [emitAlert, pctChange, h, h0, pyAbsGT]
  · intro h0
    rcases h0.lt_or_lt with hlt | hgt
    · have hpct : pctChange prev.price cur.price = .ninf := by
        simp [pctChange, h, hlt, asymm hlt]
      refine ⟨{ crypto := c, ts := cur.ts, start_price := prev.price,
                end_price := cur.price, price_change_pct := .ninf,
                time_interval := fmtInterval (cur.ts - prev.ts) },
              ?_, Or.inr rfl⟩
      simp [emitAlert, hpct, pyAbsGT]
    · have hpct : pctChange prev.price cur.price = .inf := by
        simp [pctChange, h, hgt]
      refine ⟨{ crypto := c, ts := cur.ts, start_price := prev.price,
                end_price := cur.price, price_change_pct := .inf,
                time_interval := fmtInterval (cur.ts - prev.ts) },
              ?_, Or.inl rfl⟩
      simp [emitAlert, hpct, pyAbsGT]

/-- Witness for the amended C1 at the pair `(price 0, price 1)`. -/
theorem C1_zero_baseline_w :
    ((({ crypto := "BTC", ts := 300, price := 1 } : Sample)).price = 0 →
      emitAlert "BTC" { crypto := "BTC", ts := 0, price := 0 }
        { crypto := "BTC", ts := 300, price := 1 } 2 = none) ∧
    ((({ crypto := "BTC", ts := 300, price := 1 } : Sample)).price ≠ 0 →
      ∃ a, emitAlert "BTC" { crypto := "BTC", ts := 0, price := 0 }
        { crypto := "BTC", ts := 300, price := 1 } 2 = some a ∧
      (a.price_change_pct = .inf ∨ a.price_change_pct = .ninf)) :=
  C1_zero_baseline "BTC" { crypto := "BTC", ts := 0, price := 0 }
    { crypto := "BTC", ts := 300, price := 1 } 2 (by decide)

/-- C7 counterexample: running `check_for_alerts` twice on the identical
price table persists the same alert row twice — nothing de-duplicates. -/
theorem C7_cex :
    (checkForAlerts 2 (checkForAlerts 2
      { prices := [{ crypto := "BTC", ts := 10, price := 100 },
                   { crypto := "BTC", ts := 310, price := 103 }],
        stats := [], alertRows := [] }).1).1.alertRows
    = [{ crypto := "BTC", ts := 310, start_price := 100, end_price := 103,
         price_change_pct := .fin 3, time_interval := "0 days 00:05:00" },
       { crypto := "BTC", ts := 310, start_price := 100, end_price := 103,
         price_change_pct := .fin 3, time_interval := "0 days 00:05:00" }] := by
  decide

/-- C7 amended: re-running `check_for_alerts` on the identical window (no new
samples) returns the same alert set both times, but each run inserts the
alerts into the store again — neither the store nor the caller de-dupes, so
the records are persisted twice. -/
theorem C7_rerun_same_alerts_duplicated (th : ℚ) (s : Store) :
    (checkForAlerts th (checkForAlerts th s).1).2 = (checkForAlerts th s).2 ∧
    (checkForAlerts th (checkForAlerts th s).1).1.alertRows
      = s.alertRows ++ (checkForAlerts th s).2 ++ (checkForAlerts th s).2 := by
  constructor <;> simp [checkForAlerts]

/-- C10: with no webhook configured, `send_slack_alert` attempts no HTTP post
for any message, raises nothing, and the rest of the tick is unaffected:
the tick's outcome does not depend on whether the notifier would have
failed, and the commit is always reached. -/
theorem C10_no_webhook_noop (msg : String) (fetched : List (String × ℚ))
    (now : ℚ) (nf : Bool) (s0 : Store) :
    sendSlackAlert none msg = [] ∧
    runScraper fetched now none true s0 = runScraper fetched now none false s0 ∧
    (runScraper fetched now none nf s0).committed = true := by
  have hposts : ∀ alerts : List AlertRec, postsFor none alerts = [] := by
    intro alerts
    unfold postsFor
    rcases formatAlertsForSlack alerts with _ | m <;> simp [sendSlackAlert]
  refine ⟨rfl, ?_, ?_⟩ <;> simp [runScraper, hposts]

/-- C2 counterexample: a tick whose fetch reported a transport failure
(empty fetch result) against a store that already holds two samples ingests
nothing, yet still writes one StatRecord during the tick. -/
theorem C2_cex :
    (runScraper [] 600 none false
      { prices := [{ crypto := "BTC", ts := 10, price := 100 },
                   { crypto := "BTC", ts := 310, price := 100 }],
        stats := [], alertRows := [] }).ingested = 0 ∧
    (runScraper [] 600 none false
      { prices := [{ crypto := "BTC", ts := 10, price := 100 },
                   { crypto := "BTC", ts := 310, price := 100 }],
        stats := [], alertRows := [] }).store.stats.length = 1 := by
  constructor <;> decide

/-- C2 amended: on a transport-level fetch failure the tick ingests zero
samples and adds no price rows, but statistics and alert detection still run
over the previously stored samples — the alerts of the tick are exactly the
ones detected on the old data, and (as the counterexample shows) StatRecord
rows can still be written. -/
theorem C2_source_failure_still_processes (now : ℚ) (webhook : Option String)
    (nf : Bool) (s0 : Store) :
    (runScraper [] now webhook nf s0).ingested = 0 ∧
    (runScraper [] now webhook nf s0).store.prices = s0.prices ∧
    (runScraper [] now webhook nf s0).alerts
      = (checkForAlerts variationAlertThreshold (calculateStats now s0)).2 := by
  refine ⟨?_, ?_, ?_⟩ <;>
    · simp only [runScraper, List.map_nil, List.append_nil]
      split <;> simp [checkForAlerts, calculateStats]

/-- C3 counterexample: with a configured webhook and a failing notifier, a
tick that detects an alert ends with the alert row absent from the store —
the notifier exception rolled the transaction back, losing the record. -/
theorem C3_cex :
    (runScraper [] 600 (some "hook") true
      { prices := [{ crypto := "BTC", ts := 10, price := 100 },
                   { crypto := "BTC", ts := 310, price := 103 }],
        stats := [], alertRows := [] }).alerts ≠ [] ∧
    (runScraper [] 600 (some "hook") true
      { prices := [{ crypto := "BTC", ts := 10, price := 100 },
                   { crypto := "BTC", ts := 310, price := 103 }],
        stats := [], alertRows := [] }).store.alertRows = [] := by
  constructor <;> decide

/-- C3 amended: alerts are inserted before the notifier is invoked, but only
into the still-open transaction — the commit happens after notification, so
when the notifier raises, the whole tick (its alert rows included) is rolled
back and the store returns to its pre-tick state. -/
theorem C3_notifier_failure_rolls_back (fetched : List (String × ℚ)) (now : ℚ)
    (url : String) (s0 : Store) (hurl : url ≠ "")
    (halerts : (runScraper fetched now (some url) true s0).alerts ≠ []) :
    (runScraper fetched now (some url) true s0).store = s0 ∧
    (runScraper fetched now (some url) true s0).committed = false := by
  have hA : (runScraper fetched now (some url) true s0).alerts
      = (checkForAlerts variationAlertThreshold (calculateStats now
          { s0 with
            prices := s0.prices ++ fetched.map (fun cp => ⟨cp.1, now, cp.2⟩) })).2 := by
    simp only [runScraper]
    split <;> rfl
  rw [hA] at halerts
  rcases hx : (checkForAlerts variationAlertThreshold (calculateStats now
      { s0 with
        prices := s0.prices ++ fetched.map (fun cp => ⟨cp.1, now, cp.2⟩) })).2
    with _ | ⟨a, as⟩
  · exact absurd hx halerts
  · constructor <;>
      simp [runScraper, hx, postsFor, formatAlertsForSlack, sendSlackAlert, hurl]

/-- Witness for the amended C3: a concrete store whose old samples contain a
3% jump; the tick detects the alert, the notifier fails, and the store is
back to its pre-tick state with no commit. -/
theorem C3_notifier_failure_rolls_back_w :
    (runScraper [] 600 (some "hook") true
      { prices := [{ crypto := "BTC", ts := 10, price := 100 },
                   { crypto := "BTC", ts := 310, price := 103 }],
        stats := [], alertRows := [] }).store
      = { prices := [{ crypto := "BTC", ts := 10, price := 100 },
                     { crypto := "BTC", ts := 310, price := 103 }],
          stats := [], alertRows := [] } ∧
    (runScraper [] 600 (some "hook") true
      { prices := [{ crypto := "BTC", ts := 10, price := 100 },
                   { crypto := "BTC", ts := 310, price := 103 }],
        stats := [], alertRows := [] }).committed = false :=
  C3_notifier_failure_rolls_back [] 600 "hook"
    { prices := [{ crypto := "BTC", ts := 10, price := 100 },
                 { crypto := "BTC", ts := 310, price := 103 }],
      stats := [], alertRows := [] }
    (by decide) (by decide)

/-- C6: when every sample of a (non-trivial) window is at least as recent as
the 24h reference instant, the 24h change is computed from the earliest
available sample of the window to the latest one — the fallback-to-earliest
policy — and the `0` sentinel is produced only for windows with no
qualifying sample at all. -/
theorem C6_24h_fallback_to_earliest (now ref : ℚ) (c : String)
    (s0 : Sample) (tl : List Sample)
    (h2 : 2 ≤ (s0 :: tl).length)
    (hall : ∀ s ∈ s0 :: tl, ref ≤ s.ts) :
    (∃ r, computeStats now ref c (s0 :: tl) = some r ∧
      r.price_change_24h_pct
        = pctChange s0.price (((s0 :: tl).map (·.price)).getLast?.getD 0)) ∧
    ∀ w : List Sample, (∀ s ∈ w, s.ts < ref) →
      ∀ r, computeStats now ref c w = some r →
        r.price_change_24h_pct = .fin 0 := by
  constructor
  · have hfilter : (s0 :: tl).filter (fun s => decide (ref ≤ s.ts)) = s0 :: tl := by
      rw [List.filter_eq_self]
      intro a ha
      exact decide_eq_true (hall a ha)
    unfold computeStats
    rw [if_neg (not_lt.mpr h2)]
    refine ⟨_, rfl, ?_⟩
    simp [hfilter]
  · intro w hw r hr
    have hfilter : w.filter (fun s => decide (ref ≤ s.ts)) = [] := by
      rw [List.filter_eq_nil_iff]
      intro a ha
      simp [not_le.mpr (hw a ha)]
    unfold computeStats at hr
    by_cases hlen : w.length < 2
    · rw [if_pos hlen] at hr
      exact absurd hr (by simp)
    · rw [if_neg hlen] at hr
      simp only [Option.some.injEq] at hr
      subst hr
      simp [hfilter]

/-- Witness for C6 (Scenario D): the oldest sample is well inside the 24h
range, so the 24h change is taken from it (here 100 → 110, a `.fin 10`). -/
theorem C6_24h_fallback_to_earliest_w :
    (∃ r, computeStats 100000 13600 "BTC"
        [{ crypto := "BTC", ts := 92800, price := 100 },
         { crypto := "BTC", ts := 100000, price := 110 }] = some r ∧
      r.price_change_24h_pct
        = pctChange ({ crypto := "BTC", ts := 92800, price := 100 } : Sample).price
            ((([({ crypto := "BTC", ts := 92800, price := 100 } : Sample),
                { crypto := "BTC", ts := 100000, price := 110 }]).map (·.price)).getLast?.getD 0)) ∧
    ∀ w : List Sample, (∀ s ∈ w, s.ts < 13600) →
      ∀ r, computeStats 100000 13600 "BTC" w = some r →
        r.price_change_24h_pct = .fin 0 :=
  C6_24h_fallback_to_earliest 100000 13600 "BTC"
    { crypto := "BTC", ts := 92800, price := 100 }
    [{ crypto := "BTC", ts := 100000, price := 110 }]
    (by decide) (by decide)

/-- C9: for every window with at least 2 samples, the `volume_5min` statistic
is the (ddof = 1) standard deviation of the prices of the last at-most-6
samples of the window; the `0` branch for a tail with fewer than 2 samples
is unreachable there (such a tail always keeps at least 2 samples). -/
theorem C9_volatility_std_of_last6 (now ref : ℚ) (c : String) (w : List Sample)
    (h2 : 2 ≤ w.length) :
    ∃ r, computeStats now ref c w = some r ∧
      r.volume_5min = sampleStd ((lastN 6 w).map (·.price)) ∧
      ((lastN 6 w).length < 2 → r.volume_5min = 0) := by
  have hlen : 2 ≤ (lastN 6 w).length := by
    unfold lastN
    rw [List.length_drop]
    omega
  unfold computeStats
  rw [if_neg (not_lt.mpr h2)]
  refine ⟨_, rfl, ?_, ?_⟩
  · simp [hlen]
  · intro hlt
    omega

/-- Witness for C9 at a two-sample window. -/
theorem C9_volatility_std_of_last6_w :
    ∃ r, computeStats 600 0 "BTC"
        [{ crypto := "BTC", ts := 10, price := 100 },
         { crypto := "BTC", ts := 310, price := 104 }] = some r ∧
      r.volume_5min = sampleStd ((lastN 6
        [({ crypto := "BTC", ts := 10, price := 100 } : Sample),
         { crypto := "BTC", ts := 310, price := 104 }]).map (·.price)) ∧
      ((lastN 6 [({ crypto := "BTC", ts := 10, price := 100 } : Sample),
         { crypto := "BTC", ts := 310, price := 104 }]).length < 2 →
        r.volume_5min = 0) :=
  C9_volatility_std_of_last6 600 0 "BTC"
    [{ crypto := "BTC", ts := 10, price := 100 },
     { crypto := "BTC", ts := 310, price := 104 }]
    (by decide)

/-! ### Round-trip of the formatted time interval (helpers for C8) -/

/-- Reading back a digit character gives the digit. -/
theorem charVal_digitChar (d : ℕ) (h : d < 10) : charVal (digitChar d) = d := by
  interval_cases d <;> decide

/-- Digit characters satisfy `Char.isDigit`. -/
theorem isDigit_digitChar (d : ℕ) (h : d < 10) : (digitChar d).isDigit = true := by
  interval_cases d <;> decide

/-- With enough fuel, `natCharsAux` produces exactly the base-10 digits. -/
theorem natCharsAux_eq_digits (fuel n : ℕ) (h : n ≤ fuel) :
    natCharsAux fuel n = (Nat.digits 10 n).map digitChar := by
  induction fuel generalizing n with
  | zero =>
    interval_cases n
    rw [Nat.digits_zero]
    rfl
  | succ fuel ih =>
    cases n with
    | zero =>
      rw [Nat.digits_zero]
      rfl
    | succ n =>
      have hdiv : (n + 1) / 10 ≤ fuel := by
        have := Nat.div_lt_self (Nat.succ_pos n) (by norm_num : 1 < 10)
        omega
      rw [natCharsAux, ih _ hdiv,
        Nat.digits_def' (by norm_num : 1 < 10) (Nat.succ_pos n)]
      simp

/-- Folding the reversed digit rendering evaluates the digit list. -/
theorem charsVal_digits (L : List ℕ) (hL : ∀ d ∈ L, d < 10) :
    charsVal ((L.map digitChar).reverse) = Nat.ofDigits 10 L := by
  induction L with
  | nil => rfl
  | cons d L ih =>
    have hd : d < 10 := hL d (List.mem_cons_self d L)
    have ihL := ih (fun x hx => hL x (List.mem_cons_of_mem d hx))
    unfold charsVal at ihL ⊢
    rw [List.map_cons, List.reverse_cons, List.foldl_append, ihL,
      Nat.ofDigits_cons]
    simp [charVal_digitChar d hd]
    ring

/-- Rendering and reading back any natural number round-trips. -/
theorem charsVal_natChars (n : ℕ) : charsVal (natChars n) = n := by
  unfold natChars
  rw [natCharsAux_eq_digits n n le_rfl,
    charsVal_digits _ (fun d hd => Nat.digits_lt_base (by norm_num) hd)]
  exact Nat.ofDigits_digits 10 n

/-- Same for the rendering that prints 0 as "0". -/
theorem charsVal_natCharsD (n : ℕ) : charsVal (natCharsD n) = n := by
  unfold natCharsD
  split
  · rename_i h
    subst h
    decide
  · exact charsVal_natChars n

/-- Every character of the day rendering is a digit. -/
theorem natCharsD_digits (n : ℕ) : ∀ ch ∈ natCharsD n, ch.isDigit = true := by
  intro ch hc
  unfold natCharsD at hc
  split at hc
  · rw [List.mem_singleton] at hc
    subst hc
    decide
  · unfold natChars at hc
    rw [natCharsAux_eq_digits n n le_rfl, List.mem_reverse] at hc
    obtain ⟨d, hd, rfl⟩ := List.mem_map.mp hc
    exact isDigit_digitChar d (Nat.digits_lt_base (by norm_num) hd)

/-- The day rendering is never empty. -/
theorem natCharsD_ne_nil (n : ℕ) : natCharsD n ≠ [] := by
  unfold natCharsD
  split
  · simp
  · unfold natChars
    rw [natCharsAux_eq_digits n n le_rfl]
    simp_all [Nat.digits_ne_nil_iff_ne_zero]

/-- `takeDigits` stops exactly at the first non-digit. -/
theorem takeDigits_append (ds : List Char) (c0 : Char) (rest : List Char)
    (hds : ∀ ch ∈ ds, ch.isDigit = true) (hc0 : c0.isDigit = false) :
    takeDigits (ds ++ c0 :: rest) = (ds, c0 :: rest) := by
  induction ds with
  | nil => simp [takeDigits, hc0]
  | cons d ds ih =>
    have hd : d.isDigit = true := hds d (List.mem_cons_self _ _)
    rw [List.cons_append, takeDigits]
    simp [hd, ih (fun ch hch => hds ch (List.mem_cons_of_mem _ hch))]

/-- Parsing the `HH:MM:SS` tail of a formatted interval. -/
theorem parseHMS_pad (h m s : ℕ) (hh : h < 100) (hm : m < 100) (hs : s < 100) :
    parseHMS (padTwo h ++ [':'] ++ padTwo m ++ [':'] ++ padTwo s)
      = some (h * 3600 + m * 60 + s) := by
  have e1 := charVal_digitChar (h / 10) (by omega)
  have e2 := charVal_digitChar (h % 10) (by omega)
  have e3 := charVal_digitChar (m / 10) (by omega)
  have e4 := charVal_digitChar (m % 10) (by omega)
  have e5 := charVal_digitChar (s / 10) (by omega)
  have e6 := charVal_digitChar (s % 10) (by omega)
  have i1 := isDigit_digitChar (h / 10) (by omega)
  have i2 := isDigit_digitChar (h % 10) (by omega)
  have i3 := isDigit_digitChar (m / 10) (by omega)
  have i4 := isDigit_digitChar (m % 10) (by omega)
  have i5 := isDigit_digitChar (s / 10) (by omega)
  have i6 := isDigit_digitChar (s % 10) (by omega)
  simp [padTwo, parseHMS, e1, e2, e3, e4, e5, e6, i1, i2, i3, i4, i5, i6]
  omega

/-- Parsing a formatted whole-second interval recovers the seconds. -/
theorem parseChars_fmtSeconds (t : ℕ) : parseChars (fmtSeconds t) = some t := by
  obtain ⟨d0, ds', hd⟩ : ∃ d0 ds', natCharsD (t / 86400) = d0 :: ds' := by
    rcases h : natCharsD (t / 86400) with _ | ⟨a, b⟩
    · exact absurd h (natCharsD_ne_nil _)
    · exact ⟨a, b, rfl⟩
  have hsplit : takeDigits (fmtSeconds t)
      = (natCharsD (t / 86400),
         ' ' :: 'd' :: 'a' :: 'y' :: 's' :: ' '
           :: (padTwo (t % 86400 / 3600) ++ [':'] ++ padTwo (t % 3600 / 60)
               ++ [':'] ++ padTwo (t % 60))) := by
    have := takeDigits_append (natCharsD (t / 86400)) ' '
      ('d' :: 'a' :: 'y' :: 's' :: ' '
        :: (padTwo (t % 86400 / 3600) ++ [':'] ++ padTwo (t % 3600 / 60)
            ++ [':'] ++ padTwo (t % 60)))
      (natCharsD_digits _) (by decide)
    rw [← this]
    unfold fmtSeconds
    simp [List.append_assoc]
  have hne : (natCharsD (t / 86400)).isEmpty = false := by
    rw [hd]
    rfl
  unfold parseChars
  rw [hsplit]
  simp only [hne, Bool.false_eq_true, if_false, dropDaysSep,
    parseHMS_pad (t % 86400 / 3600) (t % 3600 / 60) (t % 60)
      (by omega) (by omega) (by omega),
    Option.map_some', Option.some.injEq, charsVal_natCharsD]
  omega

/-- C8: every alert the detector emits carries a `time_interval` string
whose re-parse is the elapsed duration between the two samples truncated to
whole seconds, i.e. the original elapsed duration to second precision. -/
theorem C8_interval_roundtrip (c : String) (prev cur : Sample) (th : ℚ)
    (a : AlertRec) (hord : prev.ts ≤ cur.ts)
    (hemit : emitAlert c prev cur th = some a) :
    ∃ n : ℕ, parseInterval a.time_interval = some n ∧
      (n : ℚ) ≤ cur.ts - prev.ts ∧ cur.ts - prev.ts < (n : ℚ) + 1 := by
  have hti : a.time_interval = fmtInterval (cur.ts - prev.ts) := by
    simp only [emitAlert] at hemit
    split at hemit
    · injection hemit with hrec
      rw [← hrec]
    · exact absurd hemit (by simp)
  have hpos : (0 : ℚ) ≤ cur.ts - prev.ts := by linarith
  have hfl : (0 : ℤ) ≤ ⌊cur.ts - prev.ts⌋ := Int.floor_nonneg.mpr hpos
  have htn : (⌊cur.ts - prev.ts⌋.toNat : ℤ) = ⌊cur.ts - prev.ts⌋ :=
    Int.toNat_of_nonneg hfl
  have hcast : ((⌊cur.ts - prev.ts⌋.toNat : ℕ) : ℚ)
      = ((⌊cur.ts - prev.ts⌋ : ℤ) : ℚ) := by
    rw [← htn]
    norm_cast
  refine ⟨Int.toNat ⌊cur.ts - prev.ts⌋, ?_, ?_, ?_⟩
  · rw [hti]
    unfold fmtInterval parseInterval
    exact parseChars_fmtSeconds _
  · rw [hcast]
    exact Int.floor_le _
  · rw [hcast]
    exact Int.lt_floor_add_one _

/-- Witness for C8: the alert for a 100 → 103 move over 300 seconds carries
`"0 days 00:05:00"`, which parses back to 300 seconds. -/
theorem C8_interval_roundtrip_w :
    ∃ n : ℕ, parseInterval ({ crypto := "BTC", ts := 310,
                              start_price := 100, end_price := 103,
                              price_change_pct := .fin 3,
                              time_interval := "0 days 00:05:00" }
        : AlertRec).time_interval = some n ∧
      (n : ℚ) ≤ ({ crypto := "BTC", ts := 310, price := 103 } : Sample).ts
          - ({ crypto := "BTC", ts := 10, price := 100 } : Sample).ts ∧
      ({ crypto := "BTC", ts := 310, price := 103 } : Sample).ts
          - ({ crypto := "BTC", ts := 10, price := 100 } : Sample).ts < (n : ℚ) + 1 :=
  C8_interval_roundtrip "BTC" { crypto := "BTC", ts := 10, price := 100 }
    { crypto := "BTC", ts := 310, price := 103 } 2
    { crypto := "BTC", ts := 310, start_price := 100, end_price := 103,
      price_change_pct := .fin 3, time_interval := "0 days 00:05:00" }
    (by decide) (by decide)

end CryptoTracker
